import Mathlib

/-!
Verification of the distributed-pine-api rate limiter.

The definitions below are a shallow embedding of the repository's source:

* `src/app/rate_limiter.py` — the Lua admission script (`_LUA_SCRIPT`) and
  `RateLimiter.check_and_consume`.  Redis structures are embedded as plain
  lists: a sorted-set of bucket ids becomes a duplicate-free `List Nat`, the
  per-bucket hash becomes an association list `List (Nat × Int)`, and the
  running-total string key becomes an `Option Int` (`none` = key absent).
  Every Redis command used by the script (`ZRANGEBYSCORE`, `HGET`, `HDEL`,
  `INCRBY`, `ZREMRANGEBYSCORE`, `GET`, `SET`, `ZADD`, `HINCRBY`, `EXPIRE`)
  is given its semantics on this state.  The wall clock `now_ms`, read by
  the Python code via `time.time()`, is passed explicitly.
* `src/app/config.py` — `APIKeyStore.reload` over an embedded YAML value.
* `src/app/main.py` — `_estimate_tokens`, `_auth_headers` and the admission
  path of `chat_completions`.
* `RateLimiter._eval_script` — the unknown-script retry logic.
-/

/-- Limits loaded for one API key (`config.APIKeyLimits`). -/
structure APIKeyLimits where
  api_key : String
  rpm : Int
  input_tpm : Int
  output_tpm : Int
deriving Repr, DecidableEq

/-- Redis `HGET hash k` on the association-list embedding of a Redis hash. -/
def hget : List (Nat × Int) → Nat → Option Int
  | [], _ => none
  | (j, a) :: t, k => if j = k then some a else hget t k

/-- Redis `HDEL hash k`: remove the entry for key `k`. -/
def hdel : List (Nat × Int) → Nat → List (Nat × Int)
  | [], _ => []
  | (j, a) :: t, k => if j = k then hdel t k else (j, a) :: hdel t k

/-- Redis `HINCRBY hash k d`: add `d` to field `k`, creating it at `d` if absent. -/
def hincrby : List (Nat × Int) → Nat → Int → List (Nat × Int)
  | [], k, d => [(k, d)]
  | (j, a) :: t, k, d => if j = k then (j, a + d) :: t else (j, a) :: hincrby t k d

/-- Keys of the hash, in order. -/
def keysOf (h : List (Nat × Int)) : List Nat := h.map Prod.fst

/-- Sum of the hash's values (the quantity `RunningTotal` must track). -/
def dimSum (h : List (Nat × Int)) : Int := (h.map Prod.snd).sum

/-- Redis `ZADD z b b`: the score equals the member, so adding an existing member
is a no-op and a new member is inserted. -/
def zadd (z : List Nat) (b : Nat) : List Nat := if b ∈ z then z else z ++ [b]

/-- Redis `ZRANGEBYSCORE z 0 (oldest-1)`: members with score ≤ `oldest - 1`
(ids are naturals, so the lower bound 0 is vacuous). -/
def expiredIds (z : List Nat) (oldest : Int) : List Nat :=
  z.filter (fun b => decide ((b : Int) ≤ oldest - 1))

/-- Redis `ZREMRANGEBYSCORE z 0 (oldest-1)`. -/
def zremExpired (z : List Nat) (oldest : Int) : List Nat :=
  z.filter (fun b => decide (oldest - 1 < (b : Int)))

/-- The window state of one (api_key, dimension) pair: the bucket-id sorted
set (`:z`), the per-bucket hash (`:h`), the running total (`:total`, `none`
when the key is absent), and the TTL last set on each of the three keys. -/
structure DimState where
  zset : List Nat
  hash : List (Nat × Int)
  total : Option Int
  ttlZ : Option Nat
  ttlH : Option Nat
  ttlT : Option Nat
deriving Repr, DecidableEq

/-- A dimension's state before any store key exists. -/
def emptyDim : DimState := ⟨[], [], none, none, none, none⟩

/-- Body of the Lua `prune` loop for one expired bucket id: `HGET`, and when
the field exists, `HDEL` plus `INCRBY total -amount` (an `INCRBY` on an
absent key treats it as 0 and creates it). -/
def pruneStep (d : DimState) (bucket_id : Nat) : DimState :=
  match hget d.hash bucket_id with
  | some amount =>
      { d with hash := hdel d.hash bucket_id,
               total := some (d.total.getD 0 - amount) }
  | none => d

/-- Lua `ensure_total`: `GET` the total, `SET` it to `'0'` when absent. -/
def ensure_total (t : Option Int) : Int × Option Int :=
  match t with
  | none => (0, some 0)
  | some v => (v, some v)

/-- The eviction phase of Lua `prune`: collect the expired bucket ids and,
when there are any (`#expired > 0`), run `pruneStep` over them and
`ZREMRANGEBYSCORE` the expired range. -/
def pruneEvict (oldest : Int) (d : DimState) : DimState :=
  let expired := expiredIds d.zset oldest
  if expired = [] then d
  else
    let dE := expired.foldl pruneStep d
    { dE with zset := zremExpired dE.zset oldest }

/-- Lua `prune(zset_key, hash_key, total_key)`: evict expired buckets, then
`ensure_total`.  Returns the running total it read together with the
mutated state. -/
def prune (oldest : Int) (d : DimState) : Int × DimState :=
  let d1 := pruneEvict oldest d
  let vt := ensure_total d1.total
  (vt.1, { d1 with total := vt.2 })

/-- The accepted-admission mutation of one dimension: `ZADD` of the current
bucket, `HINCRBY` of its field by the dimension's delta, `INCRBY` of the
running total, and `EXPIRE ttl` on all three keys. -/
def consumeDim (d : DimState) (bucket : Nat) (delta : Int) (ttl : Nat) : DimState :=
  { zset := zadd d.zset bucket,
    hash := hincrby d.hash bucket delta,
    total := some (d.total.getD 0 + delta),
    ttlZ := some ttl, ttlH := some ttl, ttlT := some ttl }

/-- All nine store keys of one api_key: one `DimState` per dimension. -/
structure KeyState where
  rpm : DimState
  inputD : DimState
  outputD : DimState
deriving Repr, DecidableEq

/-- The store state before any admission for the key. -/
def initKeyState : KeyState := ⟨emptyDim, emptyDim, emptyDim⟩

/-- The five-element array the Lua script returns. -/
structure ScriptReturn where
  allowedFlag : Nat
  current_rpm : Int
  current_input : Int
  current_output : Int
  limit_hit : Nat
deriving Repr, DecidableEq

/-- Lua `bucket = math.floor(now_ms / 1000)`. -/
def bucketOf (now_ms : Nat) : Nat := now_ms / 1000

/-- Lua `oldest_bucket = bucket - window_seconds + 1` (over integers, as in
Lua: it may be negative when the clock is small). -/
def oldestOf (window_seconds now_ms : Nat) : Int :=
  (bucketOf now_ms : Int) - (window_seconds : Int) + 1

/-- The `limit_hit` chain of the Lua script: the first dimension, in the
canonical order ⟨rpm, input, output⟩, whose limit is positive and whose
pruned running total plus delta strictly exceeds the limit; 0 otherwise. -/
def limitHit (rpm_limit input_limit output_limit input_tokens output_tokens : Int)
    (current_rpm current_input current_output : Int) : Nat :=
  if rpm_limit > 0 ∧ current_rpm + 1 > rpm_limit then 1
  else if input_limit > 0 ∧ current_input + input_tokens > input_limit then 2
  else if output_limit > 0 ∧ current_output + output_tokens > output_limit then 3
  else 0

/-- The whole `_LUA_SCRIPT`: compute `bucket` and `oldest`, prune the three
dimensions in canonical order, derive `limit_hit` from the first violated
positive limit, and on `limit_hit == 0` apply the three increments (also to
the three `current_*` locals) and refresh all nine TTLs; finally return
`{limit_hit == 0 and 1 or 0, current_rpm, current_input, current_output,
limit_hit}`. -/
def luaScript (window_seconds now_ms : Nat)
    (rpm_limit input_limit output_limit input_tokens output_tokens : Int)
    (ttl : Nat) (s : KeyState) : ScriptReturn × KeyState :=
  let bucket : Nat := bucketOf now_ms
  let oldest : Int := oldestOf window_seconds now_ms
  let pr := prune oldest s.rpm
  let pi := prune oldest s.inputD
  let po := prune oldest s.outputD
  let limit_hit : Nat :=
    limitHit rpm_limit input_limit output_limit input_tokens output_tokens pr.1 pi.1 po.1
  let st : KeyState :=
    if limit_hit = 0 then
      ⟨consumeDim pr.2 bucket 1 ttl,
       consumeDim pi.2 bucket input_tokens ttl,
       consumeDim po.2 bucket output_tokens ttl⟩
    else ⟨pr.2, pi.2, po.2⟩
  (⟨if limit_hit = 0 then 1 else 0,
    if limit_hit = 0 then pr.1 + 1 else pr.1,
    if limit_hit = 0 then pi.1 + input_tokens else pi.1,
    if limit_hit = 0 then po.1 + output_tokens else po.1,
    limit_hit⟩, st)

/-- Source `rate_limiter.RateLimitOutcome`. -/
structure RateLimitOutcome where
  allowed : Bool
  rpm_usage : Int
  input_tokens_usage : Int
  output_tokens_usage : Int
  limit_flag : Nat
deriving Repr, DecidableEq

/-- Source `RateLimiter.check_and_consume`: clamp negative token counts with
`max(0, ·)`, pass `window_seconds`, `now_ms`, the limits and
`ttl = window_seconds + 5` to the script, and repackage its return array.
`now_ms` (`int(time.time() * 1000)` in the source) is a parameter of the
pure embedding; the disabled `_bypass` branch is dead code and omitted. -/
def check_and_consume (window_seconds now_ms : Nat) (limits : APIKeyLimits)
    (input_tokens output_tokens : Int) (s : KeyState) :
    RateLimitOutcome × KeyState :=
  let r := luaScript window_seconds now_ms limits.rpm limits.input_tpm limits.output_tpm
    (max 0 input_tokens) (max 0 output_tokens) (window_seconds + 5) s
  (⟨decide (r.1.allowedFlag ≠ 0), r.1.current_rpm, r.1.current_input, r.1.current_output,
    r.1.limit_hit⟩, r.2)

/-- One admission as seen by the store: the script arguments that vary per
call (`now_ms`, limits, raw token counts). -/
structure Adm where
  now_ms : Nat
  limits : APIKeyLimits
  input_tokens : Int
  output_tokens : Int
deriving Repr, DecidableEq

/-- The store state after a sequence of admissions for one key, all served
with the same `window_seconds`. -/
def runAdms (window_seconds : Nat) (adms : List Adm) (s : KeyState) : KeyState :=
  adms.foldl
    (fun st a =>
      (check_and_consume window_seconds a.now_ms a.limits a.input_tokens a.output_tokens st).2)
    s

/-- The part of the invariant concerning only the hash and the total. -/
def HTInv (d : DimState) : Prop :=
  d.total.getD 0 = dimSum d.hash ∧ (d.total = none → d.hash = []) ∧ (keysOf d.hash).Nodup

/-- Spec invariants 1–3 for one dimension's state, together with the
structural facts (distinct zset members, distinct hash fields, hash fields
all appear in the zset) that an actual Redis state always has. -/
structure DimInv (d : DimState) : Prop where
  sum_eq : d.total.getD 0 = dimSum d.hash
  none_empty : d.total = none → d.hash = []
  nodupK : (keysOf d.hash).Nodup
  sub_zset : ∀ k ∈ keysOf d.hash, k ∈ d.zset
  nodupZ : d.zset.Nodup

def StateInv (s : KeyState) : Prop :=
  DimInv s.rpm ∧ DimInv s.inputD ∧ DimInv s.outputD

/-- The state a rejected admission leaves behind: all three dimensions
pruned (expired buckets evicted and absent running totals initialized to 0),
nothing else touched. -/
def rejectedState (window_seconds now_ms : Nat) (s : KeyState) : KeyState :=
  ⟨(prune (oldestOf window_seconds now_ms) s.rpm).2,
   (prune (oldestOf window_seconds now_ms) s.inputD).2,
   (prune (oldestOf window_seconds now_ms) s.outputD).2⟩

/-- A pre-state holding an expired bucket (id 0) and a live bucket (id 200)
in the rpm dimension, used to exhibit that a rejected admission does prune. -/
def c1Pre : KeyState :=
  ⟨⟨[0, 200], [(0, 1), (200, 1)], some 2, none, none, none⟩, emptyDim, emptyDim⟩

/-- A JSON value as far as `_estimate_tokens` distinguishes it: a string, or
anything else. -/
inductive TextVal where
  | tstr (s : String)
  | tother
deriving Repr, DecidableEq

/-- One element of a list-shaped `content`: a string, a dict (with its
`"text"` field, when present), or any other shape. -/
inductive PiecePart where
  | pstr (s : String)
  | pdict (text : Option TextVal)
  | pother
deriving Repr, DecidableEq

/-- A message's `content` value: a string, a list of pieces, or anything
else (including an absent field). -/
inductive MsgContent where
  | cstr (s : String)
  | clist (l : List PiecePart)
  | cabsent
deriving Repr, DecidableEq

/-- Characters contributed by one piece: `len(piece)` for strings, the
length of a dict's string-valued `"text"` field, 0 otherwise. -/
def pieceChars : PiecePart → Nat
  | .pstr s => s.length
  | .pdict (some (.tstr t)) => t.length
  | .pdict _ => 0
  | .pother => 0

/-- Characters contributed by one message's content. -/
def contentChars : MsgContent → Nat
  | .cstr s => s.length
  | .clist l => (l.map pieceChars).sum
  | .cabsent => 0

/-- Source `main._estimate_tokens`: sum the content characters over all messages
and return `max(1, total_chars // 4 or 1)` (Python's `x or 1` is 1 when `x`
is 0). -/
def estimate_tokens (messages : List MsgContent) : Nat :=
  let total_chars := (messages.map contentChars).sum
  max 1 (if total_chars / 4 = 0 then 1 else total_chars / 4)

/-- The store's response to one `EVALSHA` attempt. -/
inductive EvalResp (α : Type) where
  | ok (a : α)
  | noScript
  | otherErr
deriving Repr, DecidableEq

/-- An error surfaced to the caller of `_eval_script`. -/
inductive StoreErr where
  | noScript
  | other
deriving Repr, DecidableEq

/-- The observable behaviour of one `_eval_script` call: its result, the
number of `EVALSHA` attempts made, and the number of `SCRIPT LOAD` calls
made. -/
structure EvalTrace (α : Type) where
  result : Except StoreErr α
  evalCalls : Nat
  loadCalls : Nat

/-- Source `RateLimiter._eval_script`: load the script first if no sha is cached,
try `EVALSHA`; on `NoScriptError` re-load and retry exactly once, letting a
second failure (of either kind) propagate; any other store error
propagates immediately.  `first` and `second` are the store's responses to
the successive attempts. -/
def eval_script {α : Type} (shaLoaded : Bool) (first second : EvalResp α) :
    EvalTrace α :=
  let initLoads : Nat := if shaLoaded then 0 else 1
  match first with
  | .ok a => ⟨.ok a, 1, initLoads⟩
  | .otherErr => ⟨.error .other, 1, initLoads⟩
  | .noScript =>
    match second with
    | .ok a => ⟨.ok a, 2, initLoads + 1⟩
    | .otherErr => ⟨.error .other, 2, initLoads + 1⟩
    | .noScript => ⟨.error .noScript, 2, initLoads + 1⟩

/-- Python's whitespace predicate `str.isspace()` per character
(CPython's `Py_UNICODE_ISSPACE`, Unicode 14.0 data): the ASCII whitespace
and separator controls U+0009–U+000D, U+001C–U+001F and space, plus NEL
(U+0085), NBSP (U+00A0), OGHAM SPACE (U+1680), the U+2000–U+200A spaces,
LINE/PARAGRAPH SEPARATOR (U+2028/U+2029), NARROW NBSP (U+202F), MMSP
(U+205F) and IDEOGRAPHIC SPACE (U+3000).  This is the set `str.strip()`
(and the string form of `int()`) strips. -/
def isPyWs (c : Char) : Bool :=
  decide ((9 ≤ c.toNat ∧ c.toNat ≤ 13) ∨ (28 ≤ c.toNat ∧ c.toNat ≤ 32) ∨
    c.toNat = 0x85 ∨ c.toNat = 0xA0 ∨ c.toNat = 0x1680 ∨
    (0x2000 ≤ c.toNat ∧ c.toNat ≤ 0x200A) ∨ c.toNat = 0x2028 ∨ c.toNat = 0x2029 ∨
    c.toNat = 0x202F ∨ c.toNat = 0x205F ∨ c.toNat = 0x3000)

/-- Python `token.strip()`: remove leading and trailing whitespace. -/
def pyStrip (s : String) : String :=
  String.mk (((s.toList.dropWhile isPyWs).reverse.dropWhile isPyWs).reverse)

/-- Helper for `header.split(" ", 1)`: split at the first space. -/
def splitOnceAux : List Char → List Char × List Char
  | [] => ([], [])
  | c :: rest =>
    if c = ' ' then ([], rest)
    else
      let p := splitOnceAux rest
      (c :: p.1, p.2)

/-- Python `header.split(" ", 1)` (the guarded path where a space exists). -/
def pySplitOnce (s : String) : String × String :=
  let p := splitOnceAux s.toList
  (String.mk p.1, String.mk p.2)

/-- Source `APIKeyStore.get` over the loaded registry (a Python dict lookup). -/
def store_get : List (String × APIKeyLimits) → String → Option APIKeyLimits
  | [], _ => none
  | (j, v) :: t, k => if j = k then some v else store_get t k

/-- The result of `main._auth_headers`: a 401 response or the key and its
limits. -/
inductive AuthCheck where
  | unauthorized (message : String)
  | okAuth (api_key : String) (limits : APIKeyLimits)
deriving Repr, DecidableEq

/-- Source `main._auth_headers`: 401 when the header is missing or empty or has no
space, when the scheme is not `bearer` (case-insensitively), or when the
stripped token is not in the key registry. -/
def auth_headers (header : Option String) (keys : List (String × APIKeyLimits)) :
    AuthCheck :=
  match header with
  | none => .unauthorized "Missing Authorization header"
  | some h =>
    if h = "" ∨ ¬ (h.contains ' ') then .unauthorized "Missing Authorization header"
    else
      let st := pySplitOnce h
      if st.1.toLower ≠ "bearer" then .unauthorized "Authorization must be Bearer token"
      else
        match store_get keys (pyStrip st.2) with
        | none => .unauthorized "Invalid API key"
        | some limits => .okAuth (pyStrip st.2) limits

/-- The body of `chat_completions` as far as admission control observes it:
whether `messages` is a non-empty list. -/
structure ParsedBody where
  messages_ok : Bool
deriving Repr, DecidableEq

/-- What the handler returns and whether it reached the rate limiter. -/
structure HandlerResult where
  status : Nat
  limiterCalled : Bool
deriving Repr, DecidableEq

/-- The control flow of `main.chat_completions` up to and including the
`check_and_consume` call: authenticate first, then parse the body (400 on
invalid JSON; `body = .error ()`), then validate `messages`, and only then
invoke the limiter.  The JSON parse outcome and the limiter outcome are
parameters of the pure embedding; response synthesis is irrelevant here and
summarized by the status code. -/
def chat_completions (header : Option String) (keys : List (String × APIKeyLimits))
    (body : Except Unit ParsedBody) (outcome : RateLimitOutcome) : HandlerResult :=
  match auth_headers header keys with
  | .unauthorized _ => ⟨401, false⟩
  | .okAuth _ _ =>
    match body with
    | .error _ => ⟨400, false⟩
    | .ok p =>
      if ¬ p.messages_ok then ⟨400, false⟩
      else if outcome.allowed then ⟨200, true⟩ else ⟨429, true⟩

/-- The claim's description of a bad request: Authorization header missing,
malformed (empty, no space, or non-bearer scheme), or a token that is not a
configured key. -/
def authBad (header : Option String) (keys : List (String × APIKeyLimits)) : Prop :=
  match header with
  | none => True
  | some h =>
    h = "" ∨ ¬ (h.contains ' ') ∨ (pySplitOnce h).1.toLower ≠ "bearer" ∨
      store_get keys (pyStrip (pySplitOnce h).2) = none

/-- A YAML document as `yaml.safe_load` can return it, restricted to the
scalar kinds the registry code distinguishes (floats are out of scope of
this embedding). -/
inductive Yaml where
  | ynull
  | ybool (b : Bool)
  | yint (n : Int)
  | ystr (s : String)
  | ylist (l : List Yaml)
  | ymap (m : List (String × Yaml))

/-- Python truthiness of a loaded YAML value (`raw or {}` replaces a falsy
document by an empty mapping). -/
def yFalsy : Yaml → Bool
  | .ynull => true
  | .ybool b => !b
  | .yint n => n == 0
  | .ystr s => s == ""
  | .ylist l => l.isEmpty
  | .ymap m => m.isEmpty

/-- Mapping lookup (`dict.get` / `dict[...]` success case). -/
def ylookup : List (String × Yaml) → String → Option Yaml
  | [], _ => none
  | (j, v) :: t, k => if j = k then some v else ylookup t k

/-- Start code points of the 10-character runs of Unicode decimal digits
(general category Nd), from the Unicode 14.0 data CPython 3.11 ships; the
digit value of a code point in a run is its offset from the run's start.
The first run is ASCII `0`–`9`; every other run starts at U+0660 or
above. -/
def ndBases : List Nat :=
  [0x30, 0x660, 0x6F0, 0x7C0, 0x966, 0x9E6, 0xA66, 0xAE6, 0xB66, 0xBE6,
   0xC66, 0xCE6, 0xD66, 0xDE6, 0xE50, 0xED0, 0xF20, 0x1040, 0x1090, 0x17E0,
   0x1810, 0x1946, 0x19D0, 0x1A80, 0x1A90, 0x1B50, 0x1BB0, 0x1C40, 0x1C50,
   0xA620, 0xA8D0, 0xA900, 0xA9D0, 0xA9F0, 0xAA50, 0xABF0, 0xFF10, 0x104A0,
   0x10D30, 0x11066, 0x110F0, 0x11136, 0x111D0, 0x112F0, 0x11450, 0x114D0,
   0x11650, 0x116C0, 0x11730, 0x118E0, 0x11950, 0x11C50, 0x11D50, 0x11DA0,
   0x16A60, 0x16AC0, 0x16B50, 0x1D7CE, 0x1D7D8, 0x1D7E2, 0x1D7EC, 0x1D7F6,
   0x1E140, 0x1E2F0, 0x1E950, 0x1FBF0]

/-- Table lookup for the non-trivial part of `digitVal`. -/
def ndFind (n : Nat) : Option Nat :=
  ndBases.findSome? (fun b => if b ≤ n ∧ n ≤ b + 9 then some (n - b) else none)

/-- The decimal value of a character as Python's `int(str)` sees it:
`some v` exactly for Unicode decimal digits (category Nd).  ASCII digits
are answered directly; no other digit exists below U+0660. -/
def digitVal (c : Char) : Option Nat :=
  if 48 ≤ c.toNat ∧ c.toNat ≤ 57 then some (c.toNat - 48)
  else if c.toNat < 0x660 then none
  else ndFind c.toNat

/-- The digit-run grammar of Python `int(str)` after the optional sign:
`digit ( underscore? digit )*` — an underscore must sit between two
digits, never leading, trailing or doubled.  `prev` records whether the
previous character was a digit. -/
def digitsCore : List Char → Nat → Bool → Option Nat
  | [], acc, prev => if prev then some acc else none
  | c :: rest, acc, prev =>
    match digitVal c with
    | some d => digitsCore rest (acc * 10 + d) true
    | none => if c == '_' && prev then digitsCore rest acc false else none

/-- Python `int(str)`: strip whitespace (the same set as `str.strip()`),
then an optional single sign followed by a non-empty run of Unicode
decimal digits with optional underscore grouping; anything else raises
(`none`). -/
def pyIntOfStr (s : String) : Option Int :=
  match (pyStrip s).toList with
  | [] => none
  | c :: rest =>
    if c = '-' then (digitsCore rest 0 false).map (fun n => -(Int.ofNat n))
    else if c = '+' then (digitsCore rest 0 false).map Int.ofNat
    else (digitsCore (c :: rest) 0 false).map Int.ofNat

/-- Python's `int(...)` builtin as `reload` applies it to a loaded YAML
value: ints pass through, bools convert to 0/1 (`bool` is an `int`
subclass), strings parse as integer literals, everything else raises. -/
def pyInt : Yaml → Option Int
  | .yint n => some n
  | .ybool b => some (if b then 1 else 0)
  | .ystr s => pyIntOfStr s
  | _ => none

/-- A sufficient condition for Python's `int()` to raise on a loaded YAML
value: a null, list or mapping raises `TypeError` regardless of content;
a string raises when its whitespace-stripped core is empty, or contains
an ASCII character that is not a decimal digit, a sign or an underscore
(such a character can be neither part of a digit run nor leading or
trailing whitespace). -/
def pyIntRaises : Yaml → Bool
  | .ynull => true
  | .ylist _ => true
  | .ymap _ => true
  | .ybool _ => false
  | .yint _ => false
  | .ystr s =>
    let core := (pyStrip s).toList
    decide (core = []) ||
      core.any (fun c => decide (c.toNat < 128 ∧ ¬ (48 ≤ c.toNat ∧ c.toNat ≤ 57) ∧
        c ≠ '+' ∧ c ≠ '-' ∧ c ≠ '_'))

/-- The ways `APIKeyStore.reload` can raise. -/
inductive LoadErr where
  | fileNotFound
  | parseErr
  | attrErr
  | itemsErr
  | entryTypeErr
  | keyErr (field : String)
  | valueErr (field : String)
deriving Repr, DecidableEq

/-- One loop iteration of `reload`: build `APIKeyLimits(api_key=key,
rpm=int(cfg["request_per_minute"]), ...)`, evaluating subscripts and
conversions left to right, raising on a non-mapping entry, a missing field
or a failed conversion. -/
def parseEntry (k : String) (cfg : Yaml) : Except LoadErr APIKeyLimits :=
  match cfg with
  | .ymap c =>
    match ylookup c "request_per_minute" with
    | none => .error (.keyErr "request_per_minute")
    | some v1 =>
      match pyInt v1 with
      | none => .error (.valueErr "request_per_minute")
      | some r =>
        match ylookup c "input_tokens_per_minute" with
        | none => .error (.keyErr "input_tokens_per_minute")
        | some v2 =>
          match pyInt v2 with
          | none => .error (.valueErr "input_tokens_per_minute")
          | some i =>
            match ylookup c "output_tokens_per_minute" with
            | none => .error (.keyErr "output_tokens_per_minute")
            | some v3 =>
              match pyInt v3 with
              | none => .error (.valueErr "output_tokens_per_minute")
              | some o => .ok ⟨k, r, i, o⟩
  | _ => .error .entryTypeErr

/-- The `for key, cfg in keys_section.items()` loop: the first raising
entry aborts the whole reload. -/
def parseEntries : List (String × Yaml) → Except LoadErr (List (String × APIKeyLimits))
  | [] => .ok []
  | (k, cfg) :: rest =>
    match parseEntry k cfg with
    | .error e => .error e
    | .ok lim =>
      match parseEntries rest with
      | .error e => .error e
      | .ok r => .ok ((k, lim) :: r)

/-- Source `APIKeyStore.reload`.  The input models the file system and parser:
`none` = file missing, `some (.error ())` = `yaml.safe_load` raised,
`some (.ok y)` = the parsed document.  `raw.get("keys", {})` requires the
(truthy) document to be a mapping; `keys_section.items()` requires the
`keys` value to be one. -/
def reload (file : Option (Except Unit Yaml)) :
    Except LoadErr (List (String × APIKeyLimits)) :=
  match file with
  | none => .error .fileNotFound
  | some (.error _) => .error .parseErr
  | some (.ok y) =>
    let raw := if yFalsy y then Yaml.ymap [] else y
    match raw with
    | .ymap m =>
      match (ylookup m "keys").getD (Yaml.ymap []) with
      | .ymap entries => parseEntries entries
      | _ => .error .itemsErr
    | _ => .error .attrErr

/-- A document with the canonical `keys:` layout, for stating claims about
entry handling. -/
def keysDoc (entries : List (String × Yaml)) : Yaml := .ymap [("keys", .ymap entries)]

/-- Whether an `Except` is a success. -/
def exceptOk {ε α : Type} : Except ε α → Bool
  | .ok _ => true
  | .error _ => false

/-- A registry document whose `request_per_minute` value is the string
`"7"` — not an integer — yet accepted by `reload` (Python's `int("7")`
converts it). -/
def c7Doc : Yaml :=
  keysDoc [("k", .ymap [("request_per_minute", .ystr "7"),
    ("input_tokens_per_minute", .yint 2),
    ("output_tokens_per_minute", .yint 3)])]

/-! ### Theorems -/

@[simp] theorem keysOf_nil : keysOf [] = [] := rfl

@[simp] theorem keysOf_cons (j : Nat) (a : Int) (t : List (Nat × Int)) :
    keysOf ((j, a) :: t) = j :: keysOf t := rfl

@[simp] theorem dimSum_nil : dimSum [] = 0 := rfl

@[simp] theorem dimSum_cons (j : Nat) (a : Int) (t : List (Nat × Int)) :
    dimSum ((j, a) :: t) = a + dimSum t := by
  simp [dimSum]

theorem hget_eq_none_iff (h : List (Nat × Int)) (k : Nat) :
    hget h k = none ↔ k ∉ keysOf h := by
  induction h with
  | nil => simp [hget]
  | cons p t ih =>
    obtain ⟨j, a⟩ := p
    by_cases hj : j = k
    · subst hj
      simp [hget]
    · have hj' : k ≠ j := fun hkj => hj hkj.symm
      simp only [hget, if_neg hj, keysOf_cons, List.mem_cons, ih]
      tauto

theorem hdel_of_hget_none {h : List (Nat × Int)} {k : Nat}
    (hn : hget h k = none) : hdel h k = h := by
  induction h with
  | nil => rfl
  | cons p t ih =>
    obtain ⟨j, a⟩ := p
    by_cases hj : j = k
    · rw [hget, if_pos hj] at hn
      exact absurd hn (by simp)
    · rw [hget, if_neg hj] at hn
      rw [hdel, if_neg hj, ih hn]

theorem mem_keysOf_hdel {h : List (Nat × Int)} {k j : Nat} :
    j ∈ keysOf (hdel h k) ↔ j ∈ keysOf h ∧ j ≠ k := by
  induction h with
  | nil => simp [hdel]
  | cons p t ih =>
    obtain ⟨i, a⟩ := p
    by_cases hi : i = k
    · subst hi
      rw [hdel, if_pos rfl]
      simp only [keysOf_cons, List.mem_cons, ih]
      constructor
      · rintro ⟨hm, hne⟩; exact ⟨Or.inr hm, hne⟩
      · rintro ⟨rfl | hm, hne⟩
        · exact absurd rfl hne
        · exact ⟨hm, hne⟩
    · rw [hdel, if_neg hi]
      simp only [keysOf_cons, List.mem_cons, ih]
      constructor
      · rintro (rfl | ⟨hm, hne⟩)
        · exact ⟨Or.inl rfl, fun hjk => hi (hjk ▸ rfl)⟩
        · exact ⟨Or.inr hm, hne⟩
      · rintro ⟨rfl | hm, hne⟩
        · exact Or.inl rfl
        · exact Or.inr ⟨hm, hne⟩

theorem nodup_keysOf_hdel {h : List (Nat × Int)} {k : Nat}
    (hnd : (keysOf h).Nodup) : (keysOf (hdel h k)).Nodup := by
  induction h with
  | nil => simp [hdel]
  | cons p t ih =>
    obtain ⟨i, a⟩ := p
    rw [keysOf_cons, List.nodup_cons] at hnd
    by_cases hi : i = k
    · rw [hdel, if_pos hi]
      exact ih hnd.2
    · rw [hdel, if_neg hi, keysOf_cons, List.nodup_cons]
      exact ⟨fun hm => hnd.1 (mem_keysOf_hdel.mp hm).1, ih hnd.2⟩

theorem dimSum_hdel {h : List (Nat × Int)} {k : Nat} {a : Int}
    (hnd : (keysOf h).Nodup) (hg : hget h k = some a) :
    dimSum (hdel h k) = dimSum h - a := by
  induction h with
  | nil => exact absurd hg (by simp [hget])
  | cons p t ih =>
    obtain ⟨i, b⟩ := p
    rw [keysOf_cons, List.nodup_cons] at hnd
    by_cases hi : i = k
    · subst hi
      rw [hget, if_pos rfl, Option.some_inj] at hg
      subst hg
      have hn : hget t i = none := (hget_eq_none_iff t i).mpr hnd.1
      rw [hdel, if_pos rfl, hdel_of_hget_none hn, dimSum_cons]
      ring
    · rw [hget, if_neg hi] at hg
      rw [hdel, if_neg hi, dimSum_cons, dimSum_cons, ih hnd.2 hg]
      ring

theorem dimSum_hincrby (h : List (Nat × Int)) (k : Nat) (d : Int) :
    dimSum (hincrby h k d) = dimSum h + d := by
  induction h with
  | nil => simp [hincrby]
  | cons p t ih =>
    obtain ⟨i, b⟩ := p
    by_cases hi : i = k
    · rw [hincrby, if_pos hi, dimSum_cons, dimSum_cons]
      ring
    · rw [hincrby, if_neg hi, dimSum_cons, dimSum_cons, ih]
      ring

theorem mem_keysOf_hincrby {h : List (Nat × Int)} {k j : Nat} {d : Int} :
    j ∈ keysOf (hincrby h k d) ↔ j ∈ keysOf h ∨ j = k := by
  induction h with
  | nil => simp [hincrby]
  | cons p t ih =>
    obtain ⟨i, b⟩ := p
    by_cases hi : i = k
    · subst hi
      rw [hincrby, if_pos rfl]
      simp only [keysOf_cons, List.mem_cons]
      tauto
    · rw [hincrby, if_neg hi]
      simp only [keysOf_cons, List.mem_cons, ih]
      tauto

theorem nodup_keysOf_hincrby {h : List (Nat × Int)} {k : Nat} {d : Int}
    (hnd : (keysOf h).Nodup) : (keysOf (hincrby h k d)).Nodup := by
  induction h with
  | nil => simp [hincrby]
  | cons p t ih =>
    obtain ⟨i, b⟩ := p
    rw [keysOf_cons, List.nodup_cons] at hnd
    by_cases hi : i = k
    · rw [hincrby, if_pos hi, keysOf_cons, List.nodup_cons]
      exact ⟨hi ▸ hnd.1, hnd.2⟩
    · rw [hincrby, if_neg hi, keysOf_cons, List.nodup_cons]
      refine ⟨fun hm => ?_, ih hnd.2⟩
      rcases mem_keysOf_hincrby.mp hm with hm' | rfl
      · exact hnd.1 hm'
      · exact hi rfl

theorem mem_zadd {z : List Nat} {b j : Nat} : j ∈ zadd z b ↔ j ∈ z ∨ j = b := by
  unfold zadd
  split <;> simp_all

theorem nodup_zadd {z : List Nat} {b : Nat} (h : z.Nodup) : (zadd z b).Nodup := by
  unfold zadd
  split
  · exact h
  · simpa [List.nodup_append] using ⟨h, by assumption⟩

theorem mem_zremExpired {z : List Nat} {oldest : Int} {j : Nat} :
    j ∈ zremExpired z oldest ↔ j ∈ z ∧ oldest - 1 < (j : Int) := by
  simp [zremExpired]

theorem mem_expiredIds {z : List Nat} {oldest : Int} {j : Nat} :
    j ∈ expiredIds z oldest ↔ j ∈ z ∧ (j : Int) ≤ oldest - 1 := by
  simp [expiredIds]

theorem zremExpired_of_no_expired {z : List Nat} {oldest : Int}
    (h : expiredIds z oldest = []) : zremExpired z oldest = z := by
  apply List.filter_eq_self.mpr
  intro b hb
  have hnm : b ∉ expiredIds z oldest := by simp [h]
  rw [mem_expiredIds] at hnm
  have : ¬ ((b : Int) ≤ oldest - 1) := fun hc => hnm ⟨hb, hc⟩
  simp only [decide_eq_true_eq]
  omega

@[simp] theorem ensure_total_fst (t : Option Int) : (ensure_total t).1 = t.getD 0 := by
  cases t <;> rfl

@[simp] theorem ensure_total_snd (t : Option Int) : (ensure_total t).2 = some (t.getD 0) := by
  cases t <;> rfl

theorem pruneStep_HTInv {d : DimState} (h : HTInv d) (b : Nat) :
    HTInv (pruneStep d b) ∧
    (∀ j ∈ keysOf (pruneStep d b).hash, j ∈ keysOf d.hash ∧ j ≠ b) ∧
    (pruneStep d b).zset = d.zset ∧ (pruneStep d b).total.getD 0 = dimSum (pruneStep d b).hash ∧
    (pruneStep d b).ttlZ = d.ttlZ ∧ (pruneStep d b).ttlH = d.ttlH ∧
    (pruneStep d b).ttlT = d.ttlT := by
  obtain ⟨h1, h2, h3⟩ := h
  cases hg : hget d.hash b with
  | none =>
    simp only [pruneStep, hg]
    refine ⟨⟨h1, h2, h3⟩, ?_, trivial, h1, trivial, trivial, trivial⟩
    intro j hj
    refine ⟨hj, ?_⟩
    rintro rfl
    exact (hget_eq_none_iff _ _).mp hg hj
  | some a =>
    simp only [pruneStep, hg]
    have hsum : dimSum (hdel d.hash b) = dimSum d.hash - a := dimSum_hdel h3 hg
    have hs : (some (d.total.getD 0 - a)).getD 0 = dimSum (hdel d.hash b) := by
      rw [hsum, h1]; rfl
    refine ⟨⟨hs, by simp, nodup_keysOf_hdel h3⟩, ?_, trivial, hs, trivial, trivial, trivial⟩
    intro j hj
    exact mem_keysOf_hdel.mp hj

theorem foldl_pruneStep_spec (l : List Nat) :
    ∀ d : DimState, HTInv d →
      HTInv (l.foldl pruneStep d) ∧
      (∀ j ∈ keysOf (l.foldl pruneStep d).hash, j ∈ keysOf d.hash ∧ j ∉ l) ∧
      (l.foldl pruneStep d).zset = d.zset ∧
      (l.foldl pruneStep d).ttlZ = d.ttlZ ∧
      (l.foldl pruneStep d).ttlH = d.ttlH ∧
      (l.foldl pruneStep d).ttlT = d.ttlT := by
  induction l with
  | nil =>
    intro d h
    refine ⟨h, ?_, rfl, rfl, rfl, rfl⟩
    intro j hj
    exact ⟨hj, by simp⟩
  | cons x xs ih =>
    intro d h
    have hx := pruneStep_HTInv h x
    have hrec := ih (pruneStep d x) hx.1
    rw [List.foldl_cons]
    refine ⟨hrec.1, ?_, ?_, ?_, ?_, ?_⟩
    · intro j hj
      have h1 := hrec.2.1 j hj
      have h2 := hx.2.1 j h1.1
      refine ⟨h2.1, ?_⟩
      simp only [List.mem_cons, not_or]
      exact ⟨h2.2, h1.2⟩
    · rw [hrec.2.2.1, hx.2.2.1]
    · rw [hrec.2.2.2.1, hx.2.2.2.2.1]
    · rw [hrec.2.2.2.2.1, hx.2.2.2.2.2.1]
    · rw [hrec.2.2.2.2.2, hx.2.2.2.2.2.2]

theorem pruneEvict_spec {oldest : Int} {d : DimState} (h : DimInv d) :
    HTInv (pruneEvict oldest d) ∧
    (∀ j ∈ keysOf (pruneEvict oldest d).hash, j ∈ (pruneEvict oldest d).zset) ∧
    (∀ j ∈ keysOf (pruneEvict oldest d).hash, oldest ≤ (j : Int)) ∧
    (∀ b ∈ (pruneEvict oldest d).zset, oldest ≤ (b : Int)) ∧
    (pruneEvict oldest d).zset.Nodup ∧
    (pruneEvict oldest d).ttlZ = d.ttlZ ∧
    (pruneEvict oldest d).ttlH = d.ttlH ∧
    (pruneEvict oldest d).ttlT = d.ttlT := by
  by_cases hexp : expiredIds d.zset oldest = []
  · have hz : ∀ b ∈ d.zset, oldest ≤ (b : Int) := by
      intro b hb
      have hnm : b ∉ expiredIds d.zset oldest := by simp [hexp]
      rw [mem_expiredIds] at hnm
      have : ¬ ((b : Int) ≤ oldest - 1) := fun hc => hnm ⟨hb, hc⟩
      omega
    simp only [pruneEvict, hexp, if_pos rfl]
    exact ⟨⟨h.sum_eq, h.none_empty, h.nodupK⟩, h.sub_zset,
      fun j hj => hz j (h.sub_zset j hj), hz, h.nodupZ, rfl, rfl, rfl⟩
  · have hfold := foldl_pruneStep_spec (expiredIds d.zset oldest) d
      ⟨h.sum_eq, h.none_empty, h.nodupK⟩
    simp only [pruneEvict, if_neg hexp]
    set dE := (expiredIds d.zset oldest).foldl pruneStep d with hdE
    obtain ⟨hHT, hkeys, hzs, ht1, ht2, ht3⟩ := hfold
    have hkey_bound : ∀ j ∈ keysOf dE.hash, oldest ≤ (j : Int) := by
      intro j hj
      obtain ⟨hjd, hjexp⟩ := hkeys j hj
      have hjz : j ∈ d.zset := h.sub_zset j hjd
      rw [mem_expiredIds] at hjexp
      have : ¬ ((j : Int) ≤ oldest - 1) := fun hc => hjexp ⟨hjz, hc⟩
      omega
    refine ⟨⟨hHT.1, hHT.2.1, hHT.2.2⟩, ?_, hkey_bound, ?_, ?_, ht1, ht2, ht3⟩
    · intro j hj
      obtain ⟨hjd, _⟩ := hkeys j hj
      have hjz : j ∈ d.zset := h.sub_zset j hjd
      have hb := hkey_bound j hj
      rw [hzs]
      rw [mem_zremExpired]
      exact ⟨hjz, by omega⟩
    · intro b hb
      rw [hzs] at hb
      rw [mem_zremExpired] at hb
      omega
    · rw [hzs]
      exact h.nodupZ.filter _

@[simp] theorem prune_fst (oldest : Int) (d : DimState) :
    (prune oldest d).1 = (pruneEvict oldest d).total.getD 0 := by
  simp [prune]

@[simp] theorem prune_snd (oldest : Int) (d : DimState) :
    (prune oldest d).2 =
      { pruneEvict oldest d with total := some ((pruneEvict oldest d).total.getD 0) } := by
  simp [prune]

theorem prune_spec {oldest : Int} {d : DimState} (h : DimInv d) :
    DimInv (prune oldest d).2 ∧
    (prune oldest d).2.total = some ((prune oldest d).1) ∧
    (prune oldest d).1 = dimSum (prune oldest d).2.hash ∧
    (∀ b ∈ (prune oldest d).2.zset, oldest ≤ (b : Int)) ∧
    (∀ j ∈ keysOf (prune oldest d).2.hash, oldest ≤ (j : Int)) ∧
    (prune oldest d).2.ttlZ = d.ttlZ ∧
    (prune oldest d).2.ttlH = d.ttlH ∧
    (prune oldest d).2.ttlT = d.ttlT := by
  obtain ⟨hHT, hsub, hkb, hzb, hnz, ht1, ht2, ht3⟩ := @pruneEvict_spec oldest d h
  rw [prune_fst, prune_snd]
  refine ⟨⟨by simpa using hHT.1, by simp, hHT.2.2, hsub, hnz⟩, rfl,
    by simpa using hHT.1, hzb, hkb, ht1, ht2, ht3⟩

theorem consumeDim_spec {d : DimState} (h : DimInv d) (bucket : Nat) (delta : Int)
    (ttl : Nat) :
    DimInv (consumeDim d bucket delta ttl) ∧
    (consumeDim d bucket delta ttl).total = some (d.total.getD 0 + delta) := by
  refine ⟨⟨?_, by simp [consumeDim], ?_, ?_, ?_⟩, rfl⟩
  · show (some (d.total.getD 0 + delta)).getD 0 = dimSum (hincrby d.hash bucket delta)
    rw [dimSum_hincrby, ← h.sum_eq]
    rfl
  · exact nodup_keysOf_hincrby h.nodupK
  · intro j hj
    rcases mem_keysOf_hincrby.mp hj with hm | rfl
    · exact mem_zadd.mpr (Or.inl (h.sub_zset j hm))
    · exact mem_zadd.mpr (Or.inr rfl)
  · exact nodup_zadd h.nodupZ

theorem stateInv_init : StateInv initKeyState := by
  refine ⟨?_, ?_, ?_⟩ <;>
    exact ⟨rfl, fun _ => rfl, List.nodup_nil, by simp [initKeyState, emptyDim], List.nodup_nil⟩

theorem check_snd (w now : Nat) (lim : APIKeyLimits) (it ot : Int) (s : KeyState) :
    (check_and_consume w now lim it ot s).2 =
      if (check_and_consume w now lim it ot s).1.limit_flag = 0 then
        ⟨consumeDim (prune (oldestOf w now) s.rpm).2 (bucketOf now) 1 (w + 5),
         consumeDim (prune (oldestOf w now) s.inputD).2 (bucketOf now) (max 0 it) (w + 5),
         consumeDim (prune (oldestOf w now) s.outputD).2 (bucketOf now) (max 0 ot) (w + 5)⟩
      else
        ⟨(prune (oldestOf w now) s.rpm).2,
         (prune (oldestOf w now) s.inputD).2,
         (prune (oldestOf w now) s.outputD).2⟩ := by
  simp only [check_and_consume, luaScript]

theorem check_limit_flag (w now : Nat) (lim : APIKeyLimits) (it ot : Int) (s : KeyState) :
    (check_and_consume w now lim it ot s).1.limit_flag =
      limitHit lim.rpm lim.input_tpm lim.output_tpm (max 0 it) (max 0 ot)
        (prune (oldestOf w now) s.rpm).1
        (prune (oldestOf w now) s.inputD).1
        (prune (oldestOf w now) s.outputD).1 := by
  simp only [check_and_consume, luaScript]

theorem check_StateInv {s : KeyState} (h : StateInv s) (w now : Nat)
    (lim : APIKeyLimits) (it ot : Int) :
    StateInv (check_and_consume w now lim it ot s).2 := by
  rw [check_snd]
  split
  · exact ⟨(consumeDim_spec (prune_spec h.1).1 _ _ _).1,
      (consumeDim_spec (prune_spec h.2.1).1 _ _ _).1,
      (consumeDim_spec (prune_spec h.2.2).1 _ _ _).1⟩
  · exact ⟨(prune_spec h.1).1, (prune_spec h.2.1).1, (prune_spec h.2.2).1⟩

theorem check_totals_some (w now : Nat) (lim : APIKeyLimits) (it ot : Int) (s : KeyState) :
    ((check_and_consume w now lim it ot s).2.rpm.total).isSome ∧
    ((check_and_consume w now lim it ot s).2.inputD.total).isSome ∧
    ((check_and_consume w now lim it ot s).2.outputD.total).isSome := by
  rw [check_snd]
  split <;> simp [consumeDim, prune_snd]

theorem runAdms_cons (w : Nat) (a : Adm) (t : List Adm) (s : KeyState) :
    runAdms w (a :: t) s =
      runAdms w t
        ((check_and_consume w a.now_ms a.limits a.input_tokens a.output_tokens s).2) := rfl

theorem runAdms_StateInv (w : Nat) (adms : List Adm) :
    ∀ s : KeyState, StateInv s → StateInv (runAdms w adms s) := by
  induction adms with
  | nil => intro s h; exact h
  | cons a t ih =>
    intro s h
    rw [runAdms_cons]
    exact ih _ (check_StateInv h _ _ _ _ _)

theorem runAdms_totals_some (w : Nat) (adms : List Adm) (hne : adms ≠ []) :
    ∀ s : KeyState,
      ((runAdms w adms s).rpm.total).isSome ∧
      ((runAdms w adms s).inputD.total).isSome ∧
      ((runAdms w adms s).outputD.total).isSome := by
  induction adms with
  | nil => exact absurd rfl hne
  | cons a t ih =>
    intro s
    rw [runAdms_cons]
    rcases Decidable.em (t = []) with rfl | hne'
    · exact check_totals_some _ _ _ _ _ _
    · exact ih hne' _

theorem limitHit_eq_one {rl il ol it ot r i o : Int} :
    limitHit rl il ol it ot r i o = 1 ↔ rl > 0 ∧ r + 1 > rl := by
  unfold limitHit
  split_ifs with h1 h2 h3 <;> simp_all

theorem limitHit_eq_two {rl il ol it ot r i o : Int} :
    limitHit rl il ol it ot r i o = 2 ↔
      ¬(rl > 0 ∧ r + 1 > rl) ∧ il > 0 ∧ i + it > il := by
  unfold limitHit
  split_ifs with h1 h2 h3 <;> simp_all

theorem limitHit_eq_three {rl il ol it ot r i o : Int} :
    limitHit rl il ol it ot r i o = 3 ↔
      ¬(rl > 0 ∧ r + 1 > rl) ∧ ¬(il > 0 ∧ i + it > il) ∧ ol > 0 ∧ o + ot > ol := by
  unfold limitHit
  split_ifs with h1 h2 h3 <;> simp_all

theorem limitHit_eq_zero {rl il ol it ot r i o : Int} :
    limitHit rl il ol it ot r i o = 0 ↔
      ¬(rl > 0 ∧ r + 1 > rl) ∧ ¬(il > 0 ∧ i + it > il) ∧ ¬(ol > 0 ∧ o + ot > ol) := by
  unfold limitHit
  split_ifs with h1 h2 h3 <;> simp_all

theorem decide_if_ne (L : Nat) :
    decide ((if L = 0 then (1 : Nat) else 0) ≠ 0) = true ↔ L = 0 := by
  by_cases h : L = 0 <;> simp [h]

theorem check_allowed_iff (w now : Nat) (lim : APIKeyLimits) (it ot : Int) (s : KeyState) :
    (check_and_consume w now lim it ot s).1.allowed = true ↔
    (check_and_consume w now lim it ot s).1.limit_flag = 0 := by
  simp only [check_and_consume, luaScript]
  exact decide_if_ne _

theorem pruneStep_frame (d : DimState) (b : Nat) :
    (pruneStep d b).ttlZ = d.ttlZ ∧ (pruneStep d b).ttlH = d.ttlH ∧
    (pruneStep d b).ttlT = d.ttlT := by
  cases hg : hget d.hash b <;> simp [pruneStep, hg]

theorem foldl_pruneStep_frame (l : List Nat) :
    ∀ d : DimState,
      (l.foldl pruneStep d).ttlZ = d.ttlZ ∧
      (l.foldl pruneStep d).ttlH = d.ttlH ∧
      (l.foldl pruneStep d).ttlT = d.ttlT := by
  induction l with
  | nil => intro d; exact ⟨rfl, rfl, rfl⟩
  | cons x xs ih =>
    intro d
    have hx := pruneStep_frame d x
    have hrec := ih (pruneStep d x)
    rw [List.foldl_cons]
    exact ⟨hrec.1.trans hx.1, hrec.2.1.trans hx.2.1, hrec.2.2.trans hx.2.2⟩

theorem prune_ttl_frame (oldest : Int) (d : DimState) :
    (prune oldest d).2.ttlZ = d.ttlZ ∧ (prune oldest d).2.ttlH = d.ttlH ∧
    (prune oldest d).2.ttlT = d.ttlT := by
  rw [prune_snd]
  show (pruneEvict oldest d).ttlZ = d.ttlZ ∧ (pruneEvict oldest d).ttlH = d.ttlH ∧
    (pruneEvict oldest d).ttlT = d.ttlT
  by_cases hexp : expiredIds d.zset oldest = []
  · simp only [pruneEvict, hexp, if_pos rfl]
    exact ⟨rfl, rfl, rfl⟩
  · simp only [pruneEvict, if_neg hexp]
    exact foldl_pruneStep_frame _ d

theorem opt_eq_some_getD {o : Option Int} (h : o.isSome) : o = some (o.getD 0) := by
  cases o
  · exact absurd h (by simp)
  · rfl

theorem consume_bound {oldest : Int} {d : DimState} (h : DimInv d) {bucket : Nat}
    (hb : oldest ≤ (bucket : Int)) (delta : Int) (ttl : Nat) :
    (∀ b ∈ (consumeDim (prune oldest d).2 bucket delta ttl).zset, oldest ≤ (b : Int)) ∧
    (∀ j ∈ keysOf (consumeDim (prune oldest d).2 bucket delta ttl).hash,
        oldest ≤ (j : Int)) := by
  constructor
  · intro b hbm
    rcases mem_zadd.mp hbm with hm | rfl
    · exact (prune_spec h).2.2.2.1 b hm
    · exact hb
  · intro j hj
    rcases mem_keysOf_hincrby.mp hj with hm | rfl
    · exact (prune_spec h).2.2.2.2.1 j hm
    · exact hb

/-- C1 (counterexample): a `check_and_consume` call at `now_ms = 200000`
with `rpm` limit 1 against `c1Pre` returns `allowed = false`, yet the rpm
dimension's BucketIndex, BucketTotals and RunningTotal all differ after the
call: the rejected admission has pruned the expired bucket 0.  This refutes
the claim that a rejected admission leaves every dimension's state
identical. -/
theorem C1_counterexample :
    (check_and_consume 60 200000 ⟨"k", 1, 0, 0⟩ 0 0 c1Pre).1.allowed = false ∧
    (check_and_consume 60 200000 ⟨"k", 1, 0, 0⟩ 0 0 c1Pre).2.rpm.zset ≠ c1Pre.rpm.zset ∧
    (check_and_consume 60 200000 ⟨"k", 1, 0, 0⟩ 0 0 c1Pre).2.rpm.hash ≠ c1Pre.rpm.hash ∧
    (check_and_consume 60 200000 ⟨"k", 1, 0, 0⟩ 0 0 c1Pre).2.rpm.total ≠ c1Pre.rpm.total := by
  decide

/-- C1 (amended): a call to `check_and_consume` that returns
`allowed = false` applies no admission increment: the post-state is exactly
the pre-state with expired buckets pruned and absent running totals
initialized to 0 (`rejectedState`); in particular every within-window
bucket, its total, and all TTLs are untouched. -/
theorem C1_rejected_only_prunes (w now : Nat) (lim : APIKeyLimits) (it ot : Int)
    (s : KeyState)
    (h : (check_and_consume w now lim it ot s).1.allowed = false) :
    (check_and_consume w now lim it ot s).2 = rejectedState w now s := by
  have hflag : ¬ (check_and_consume w now lim it ot s).1.limit_flag = 0 := by
    intro h0
    have htrue := (check_allowed_iff w now lim it ot s).mpr h0
    rw [h] at htrue
    exact absurd htrue (by simp)
  rw [check_snd, if_neg hflag]
  rfl

/-- Witness for the amended C1 at a concrete rejected admission. -/
theorem C1_rejected_only_prunes_witness :
    (check_and_consume 60 200000 ⟨"k", 1, 0, 0⟩ 0 0 c1Pre).2 =
      rejectedState 60 200000 c1Pre :=
  C1_rejected_only_prunes 60 200000 ⟨"k", 1, 0, 0⟩ 0 0 c1Pre (by decide)

/-- C2: after any finite sequence of admissions starting from the empty
store state, each dimension's stored RunningTotal (an absent key reading as
0) equals the sum of its BucketTotals values; after a nonempty sequence the
key exists and holds exactly that sum. -/
theorem C2_running_total_consistency (w : Nat) (adms : List Adm) (s : KeyState)
    (hs : s = runAdms w adms initKeyState) :
    (s.rpm.total.getD 0 = dimSum s.rpm.hash ∧
     s.inputD.total.getD 0 = dimSum s.inputD.hash ∧
     s.outputD.total.getD 0 = dimSum s.outputD.hash) ∧
    (adms ≠ [] →
      s.rpm.total = some (dimSum s.rpm.hash) ∧
      s.inputD.total = some (dimSum s.inputD.hash) ∧
      s.outputD.total = some (dimSum s.outputD.hash)) := by
  subst hs
  have hinv := runAdms_StateInv w adms initKeyState stateInv_init
  refine ⟨⟨hinv.1.sum_eq, hinv.2.1.sum_eq, hinv.2.2.sum_eq⟩, ?_⟩
  intro hne
  have hsome := runAdms_totals_some w adms hne initKeyState
  exact ⟨(opt_eq_some_getD hsome.1).trans (by rw [hinv.1.sum_eq]),
    (opt_eq_some_getD hsome.2.1).trans (by rw [hinv.2.1.sum_eq]),
    (opt_eq_some_getD hsome.2.2).trans (by rw [hinv.2.2.sum_eq])⟩

/-- Witness for C2 after one concrete admission. -/
theorem C2_running_total_consistency_witness :
    (runAdms 60 [⟨1000, ⟨"k", 5, 1000, 500⟩, 100, 50⟩] initKeyState).rpm.total =
      some (dimSum (runAdms 60 [⟨1000, ⟨"k", 5, 1000, 500⟩, 100, 50⟩] initKeyState).rpm.hash) :=
  ((C2_running_total_consistency 60 [⟨1000, ⟨"k", 5, 1000, 500⟩, 100, 50⟩] _ rfl).2
    (by decide)).1

/-- C3: after any admission (accepted or rejected) served at store time
`now_ms` against a reachable state, no bucket id strictly below
`floor(now_ms/1000) - window_seconds + 1` (= `oldestOf`) remains in any
dimension's BucketIndex or BucketTotals. -/
theorem C3_no_expired_residue (w : Nat) (hw : 1 ≤ w) (adms : List Adm) (s : KeyState)
    (hs : s = runAdms w adms initKeyState) (now : Nat) (lim : APIKeyLimits)
    (it ot : Int) (s' : KeyState)
    (hs' : s' = (check_and_consume w now lim it ot s).2) :
    (∀ b ∈ s'.rpm.zset, oldestOf w now ≤ (b : Int)) ∧
    (∀ j ∈ keysOf s'.rpm.hash, oldestOf w now ≤ (j : Int)) ∧
    (∀ b ∈ s'.inputD.zset, oldestOf w now ≤ (b : Int)) ∧
    (∀ j ∈ keysOf s'.inputD.hash, oldestOf w now ≤ (j : Int)) ∧
    (∀ b ∈ s'.outputD.zset, oldestOf w now ≤ (b : Int)) ∧
    (∀ j ∈ keysOf s'.outputD.hash, oldestOf w now ≤ (j : Int)) := by
  subst hs
  subst hs'
  have hinv := runAdms_StateInv w adms initKeyState stateInv_init
  have hb : oldestOf w now ≤ ((bucketOf now : Nat) : Int) := by
    unfold oldestOf
    omega
  rw [check_snd]
  split
  · exact ⟨(consume_bound hinv.1 hb _ _).1, (consume_bound hinv.1 hb _ _).2,
      (consume_bound hinv.2.1 hb _ _).1, (consume_bound hinv.2.1 hb _ _).2,
      (consume_bound hinv.2.2 hb _ _).1, (consume_bound hinv.2.2 hb _ _).2⟩
  · exact ⟨(prune_spec hinv.1).2.2.2.1, (prune_spec hinv.1).2.2.2.2.1,
      (prune_spec hinv.2.1).2.2.2.1, (prune_spec hinv.2.1).2.2.2.2.1,
      (prune_spec hinv.2.2).2.2.2.1, (prune_spec hinv.2.2).2.2.2.2.1⟩

/-- Witness for C3 at a concrete admission against a reachable state. -/
theorem C3_no_expired_residue_witness :
    (∀ b ∈ ((check_and_consume 60 200000 ⟨"k", 5, 1000, 500⟩ 100 50
        (runAdms 60 [⟨1000, ⟨"k", 5, 1000, 500⟩, 100, 50⟩] initKeyState)).2).rpm.zset,
      oldestOf 60 200000 ≤ (b : Int)) ∧
    (∀ j ∈ keysOf ((check_and_consume 60 200000 ⟨"k", 5, 1000, 500⟩ 100 50
        (runAdms 60 [⟨1000, ⟨"k", 5, 1000, 500⟩, 100, 50⟩] initKeyState)).2).rpm.hash,
      oldestOf 60 200000 ≤ (j : Int)) ∧
    (∀ b ∈ ((check_and_consume 60 200000 ⟨"k", 5, 1000, 500⟩ 100 50
        (runAdms 60 [⟨1000, ⟨"k", 5, 1000, 500⟩, 100, 50⟩] initKeyState)).2).inputD.zset,
      oldestOf 60 200000 ≤ (b : Int)) ∧
    (∀ j ∈ keysOf ((check_and_consume 60 200000 ⟨"k", 5, 1000, 500⟩ 100 50
        (runAdms 60 [⟨1000, ⟨"k", 5, 1000, 500⟩, 100, 50⟩] initKeyState)).2).inputD.hash,
      oldestOf 60 200000 ≤ (j : Int)) ∧
    (∀ b ∈ ((check_and_consume 60 200000 ⟨"k", 5, 1000, 500⟩ 100 50
        (runAdms 60 [⟨1000, ⟨"k", 5, 1000, 500⟩, 100, 50⟩] initKeyState)).2).outputD.zset,
      oldestOf 60 200000 ≤ (b : Int)) ∧
    (∀ j ∈ keysOf ((check_and_consume 60 200000 ⟨"k", 5, 1000, 500⟩ 100 50
        (runAdms 60 [⟨1000, ⟨"k", 5, 1000, 500⟩, 100, 50⟩] initKeyState)).2).outputD.hash,
      oldestOf 60 200000 ≤ (j : Int)) :=
  C3_no_expired_residue 60 (by decide) [⟨1000, ⟨"k", 5, 1000, 500⟩, 100, 50⟩] _ rfl
    200000 ⟨"k", 5, 1000, 500⟩ 100 50 _ rfl

/-- C4: with non-negative token counts (the spec's precondition), the
returned `limit_flag` is exactly the first dimension, in canonical order
⟨rpm, input, output⟩, whose limit is positive and whose pruned running
total plus delta (1, input_tokens, output_tokens) strictly exceeds the
limit, and 0 when no such dimension exists; a dimension whose limit is 0 is
never the reported flag. -/
theorem C4_canonical_limit_flag (w now : Nat) (lim : APIKeyLimits) (it ot : Int)
    (hit : 0 ≤ it) (hot : 0 ≤ ot) (s : KeyState) (f : Nat)
    (hf : f = (check_and_consume w now lim it ot s).1.limit_flag)
    (r i o : Int)
    (hr : r = (prune (oldestOf w now) s.rpm).1)
    (hi : i = (prune (oldestOf w now) s.inputD).1)
    (ho : o = (prune (oldestOf w now) s.outputD).1) :
    (f = 1 ↔ lim.rpm > 0 ∧ r + 1 > lim.rpm) ∧
    (f = 2 ↔ ¬(lim.rpm > 0 ∧ r + 1 > lim.rpm) ∧
        lim.input_tpm > 0 ∧ i + it > lim.input_tpm) ∧
    (f = 3 ↔ ¬(lim.rpm > 0 ∧ r + 1 > lim.rpm) ∧
        ¬(lim.input_tpm > 0 ∧ i + it > lim.input_tpm) ∧
        lim.output_tpm > 0 ∧ o + ot > lim.output_tpm) ∧
    (f = 0 ↔ ¬(lim.rpm > 0 ∧ r + 1 > lim.rpm) ∧
        ¬(lim.input_tpm > 0 ∧ i + it > lim.input_tpm) ∧
        ¬(lim.output_tpm > 0 ∧ o + ot > lim.output_tpm)) ∧
    (lim.rpm = 0 → f ≠ 1) ∧ (lim.input_tpm = 0 → f ≠ 2) ∧
    (lim.output_tpm = 0 → f ≠ 3) := by
  subst hf hr hi ho
  rw [check_limit_flag, max_eq_right hit, max_eq_right hot]
  refine ⟨limitHit_eq_one, limitHit_eq_two, limitHit_eq_three, limitHit_eq_zero, ?_, ?_, ?_⟩
  · intro h0 h1
    have := limitHit_eq_one.mp h1
    omega
  · intro h0 h2
    have := limitHit_eq_two.mp h2
    omega
  · intro h0 h3
    have := limitHit_eq_three.mp h3
    omega

/-- Witness for C4 at a concrete admission where the input dimension is the
first violated one. -/
theorem C4_canonical_limit_flag_witness :
    ((check_and_consume 60 1000 ⟨"k", 5, 1000, 500⟩ 1500 50 initKeyState).1.limit_flag = 2 ↔
      ¬((⟨"k", 5, 1000, 500⟩ : APIKeyLimits).rpm > 0 ∧
          (prune (oldestOf 60 1000) initKeyState.rpm).1 + 1 >
            (⟨"k", 5, 1000, 500⟩ : APIKeyLimits).rpm) ∧
        (⟨"k", 5, 1000, 500⟩ : APIKeyLimits).input_tpm > 0 ∧
        (prune (oldestOf 60 1000) initKeyState.inputD).1 + 1500 >
          (⟨"k", 5, 1000, 500⟩ : APIKeyLimits).input_tpm) :=
  (C4_canonical_limit_flag 60 1000 ⟨"k", 5, 1000, 500⟩ 1500 50 (by decide) (by decide)
    initKeyState _ rfl _ _ _ rfl rfl rfl).2.1

/-- C5: the outcome satisfies `allowed = (limit_flag == 0)`; each reported
usage is the pruned running total plus, exactly on admission, that
dimension's delta (1, clamped input_tokens, clamped output_tokens); and
negative token arguments are clamped to 0 before evaluation, so a call with
negative arguments equals the call with them replaced by 0 via `max`. -/
theorem C5_outcome_shape (w now : Nat) (lim : APIKeyLimits) (it ot : Int) (s : KeyState) :
    ((check_and_consume w now lim it ot s).1.allowed = true ↔
      (check_and_consume w now lim it ot s).1.limit_flag = 0) ∧
    ((check_and_consume w now lim it ot s).1.rpm_usage =
      (prune (oldestOf w now) s.rpm).1 +
        if (check_and_consume w now lim it ot s).1.limit_flag = 0 then 1 else 0) ∧
    ((check_and_consume w now lim it ot s).1.input_tokens_usage =
      (prune (oldestOf w now) s.inputD).1 +
        if (check_and_consume w now lim it ot s).1.limit_flag = 0 then max 0 it else 0) ∧
    ((check_and_consume w now lim it ot s).1.output_tokens_usage =
      (prune (oldestOf w now) s.outputD).1 +
        if (check_and_consume w now lim it ot s).1.limit_flag = 0 then max 0 ot else 0) ∧
    check_and_consume w now lim it ot s =
      check_and_consume w now lim (max 0 it) (max 0 ot) s := by
  refine ⟨check_allowed_iff w now lim it ot s, ?_, ?_, ?_, ?_⟩
  · simp only [check_and_consume, luaScript]
    split <;> simp
  · simp only [check_and_consume, luaScript]
    split <;> simp
  · simp only [check_and_consume, luaScript]
    split <;> simp
  · simp only [check_and_consume]
    rw [max_eq_right (le_max_left 0 it), max_eq_right (le_max_left 0 ot)]

/-- C6: all nine TTLs are set to `window_seconds + 5` exactly on an
accepted admission; a rejected admission refreshes no TTL. -/
theorem C6_ttl_refresh (w now : Nat) (lim : APIKeyLimits) (it ot : Int) (s : KeyState) :
    ((check_and_consume w now lim it ot s).1.allowed = true →
      (check_and_consume w now lim it ot s).2.rpm.ttlZ = some (w + 5) ∧
      (check_and_consume w now lim it ot s).2.rpm.ttlH = some (w + 5) ∧
      (check_and_consume w now lim it ot s).2.rpm.ttlT = some (w + 5) ∧
      (check_and_consume w now lim it ot s).2.inputD.ttlZ = some (w + 5) ∧
      (check_and_consume w now lim it ot s).2.inputD.ttlH = some (w + 5) ∧
      (check_and_consume w now lim it ot s).2.inputD.ttlT = some (w + 5) ∧
      (check_and_consume w now lim it ot s).2.outputD.ttlZ = some (w + 5) ∧
      (check_and_consume w now lim it ot s).2.outputD.ttlH = some (w + 5) ∧
      (check_and_consume w now lim it ot s).2.outputD.ttlT = some (w + 5)) ∧
    ((check_and_consume w now lim it ot s).1.allowed = false →
      (check_and_consume w now lim it ot s).2.rpm.ttlZ = s.rpm.ttlZ ∧
      (check_and_consume w now lim it ot s).2.rpm.ttlH = s.rpm.ttlH ∧
      (check_and_consume w now lim it ot s).2.rpm.ttlT = s.rpm.ttlT ∧
      (check_and_consume w now lim it ot s).2.inputD.ttlZ = s.inputD.ttlZ ∧
      (check_and_consume w now lim it ot s).2.inputD.ttlH = s.inputD.ttlH ∧
      (check_and_consume w now lim it ot s).2.inputD.ttlT = s.inputD.ttlT ∧
      (check_and_consume w now lim it ot s).2.outputD.ttlZ = s.outputD.ttlZ ∧
      (check_and_consume w now lim it ot s).2.outputD.ttlH = s.outputD.ttlH ∧
      (check_and_consume w now lim it ot s).2.outputD.ttlT = s.outputD.ttlT) := by
  constructor
  · intro h
    have hflag := (check_allowed_iff w now lim it ot s).mp h
    rw [check_snd, if_pos hflag]
    exact ⟨rfl, rfl, rfl, rfl, rfl, rfl, rfl, rfl, rfl⟩
  · intro h
    have hflag : ¬ (check_and_consume w now lim it ot s).1.limit_flag = 0 := by
      intro h0
      have htrue := (check_allowed_iff w now lim it ot s).mpr h0
      rw [h] at htrue
      exact absurd htrue (by simp)
    rw [check_snd, if_neg hflag]
    exact ⟨(prune_ttl_frame _ _).1, (prune_ttl_frame _ _).2.1, (prune_ttl_frame _ _).2.2,
      (prune_ttl_frame _ _).1, (prune_ttl_frame _ _).2.1, (prune_ttl_frame _ _).2.2,
      (prune_ttl_frame _ _).1, (prune_ttl_frame _ _).2.1, (prune_ttl_frame _ _).2.2⟩

/-- Witness for C6: an accepted admission sets the rpm `:z` TTL to 65; a
rejected one leaves it untouched. -/
theorem C6_ttl_refresh_witness :
    (check_and_consume 60 1000 ⟨"k", 5, 1000, 500⟩ 100 50 initKeyState).2.rpm.ttlZ =
      some 65 ∧
    (check_and_consume 60 1000 ⟨"k", 5, 1000, 500⟩ 1500 50 initKeyState).2.rpm.ttlZ =
      initKeyState.rpm.ttlZ :=
  ⟨((C6_ttl_refresh 60 1000 ⟨"k", 5, 1000, 500⟩ 100 50 initKeyState).1 (by decide)).1,
   ((C6_ttl_refresh 60 1000 ⟨"k", 5, 1000, 500⟩ 1500 50 initKeyState).2 (by decide)).1⟩

/-- C8: the estimate equals `max(1, total_content_chars / 4)` with the
per-shape character contributions given by `contentChars`, and it is always
at least 1 (in particular when the total is 0). -/
theorem C8_estimate_tokens (messages : List MsgContent) :
    estimate_tokens messages = max 1 ((messages.map contentChars).sum / 4) ∧
    1 ≤ estimate_tokens messages := by
  unfold estimate_tokens
  by_cases h : (messages.map contentChars).sum / 4 = 0 <;> simp [h]

/-- C9: an unknown-script failure triggers exactly one re-registration and
one retry (never more than two attempts in total); a second unknown-script
failure is surfaced, not retried; any other store error propagates with no
retry and no re-registration. -/
theorem C9_retry_once {α : Type} (loaded : Bool) (first second : EvalResp α) :
    (eval_script loaded first second).evalCalls ≤ 2 ∧
    (∀ a, first = .ok a → eval_script loaded first second =
      ⟨.ok a, 1, if loaded then 0 else 1⟩) ∧
    (first = .otherErr → eval_script loaded first second =
      ⟨.error .other, 1, if loaded then 0 else 1⟩) ∧
    (first = .noScript →
      (eval_script loaded first second).loadCalls = (if loaded then 0 else 1) + 1 ∧
      (eval_script loaded first second).evalCalls = 2 ∧
      (∀ a, second = .ok a → (eval_script loaded first second).result = .ok a) ∧
      (second = .noScript →
        (eval_script loaded first second).result = .error .noScript) ∧
      (second = .otherErr →
        (eval_script loaded first second).result = .error .other)) := by
  cases first <;> cases second <;> simp [eval_script]

/-- Witness for C9: a recovered retry after one unknown-script failure. -/
theorem C9_retry_once_witness :
    (eval_script true (EvalResp.noScript : EvalResp Nat) (.ok 7)).loadCalls = 1 ∧
    (eval_script true (EvalResp.noScript : EvalResp Nat) (.ok 7)).result = .ok 7 :=
  ⟨((C9_retry_once true .noScript (.ok 7)).2.2.2 rfl).1,
   ((C9_retry_once true .noScript (.ok 7)).2.2.2 rfl).2.2.1 7 rfl⟩

/-- C10: a request whose Authorization header is missing or malformed or
whose bearer token is unknown gets status 401 and never reaches
`check_and_consume` (hence no store operation), for every body and every
would-be limiter outcome. -/
theorem C10_auth_401_no_store (header : Option String)
    (keys : List (String × APIKeyLimits)) (body : Except Unit ParsedBody)
    (outcome : RateLimitOutcome) (h : authBad header keys) :
    chat_completions header keys body outcome = ⟨401, false⟩ := by
  cases header with
  | none => rfl
  | some s =>
    unfold authBad at h
    simp only [chat_completions, auth_headers]
    by_cases hc1 : s = "" ∨ ¬ (s.contains ' ')
    · rw [if_pos hc1]
    · rw [if_neg hc1]
      rcases h with h1 | h2 | h3 | h4
      · exact absurd (Or.inl h1) hc1
      · exact absurd (Or.inr h2) hc1
      · rw [if_pos h3]
      · by_cases h3' : (pySplitOnce s).1.toLower ≠ "bearer"
        · rw [if_pos h3']
        · rw [if_neg h3', h4]

/-- Witness for C10: an unknown bearer token is rejected with 401 before
any limiter interaction. -/
theorem C10_auth_401_no_store_witness :
    chat_completions (some "Bearer unknown") [("k", ⟨"k", 1, 1, 1⟩)]
      (.ok ⟨true⟩) ⟨true, 0, 0, 0, 0⟩ = ⟨401, false⟩ :=
  C10_auth_401_no_store (some "Bearer unknown") [("k", ⟨"k", 1, 1, 1⟩)]
    (.ok ⟨true⟩) ⟨true, 0, 0, 0, 0⟩
    (Or.inr (Or.inr (Or.inr (by decide))))

theorem reload_keysDoc (entries : List (String × Yaml)) :
    reload (some (.ok (keysDoc entries))) = parseEntries entries := rfl

theorem parseEntry_not_ok_of_missing (k : String) (c : List (String × Yaml))
    (field : String)
    (hf : field = "request_per_minute" ∨ field = "input_tokens_per_minute" ∨
      field = "output_tokens_per_minute")
    (hl : ylookup c field = none) :
    exceptOk (parseEntry k (.ymap c)) = false := by
  rcases hf with rfl | rfl | rfl
  · simp [parseEntry, hl, exceptOk]
  · cases h1 : ylookup c "request_per_minute" with
    | none => simp [parseEntry, h1, exceptOk]
    | some v1 =>
      cases h2 : pyInt v1 with
      | none => simp [parseEntry, h1, h2, exceptOk]
      | some r => simp [parseEntry, h1, h2, hl, exceptOk]
  · cases h1 : ylookup c "request_per_minute" with
    | none => simp [parseEntry, h1, exceptOk]
    | some v1 =>
      cases h2 : pyInt v1 with
      | none => simp [parseEntry, h1, h2, exceptOk]
      | some r =>
        cases h3 : ylookup c "input_tokens_per_minute" with
        | none => simp [parseEntry, h1, h2, h3, exceptOk]
        | some v2 =>
          cases h4 : pyInt v2 with
          | none => simp [parseEntry, h1, h2, h3, h4, exceptOk]
          | some i => simp [parseEntry, h1, h2, h3, h4, hl, exceptOk]

theorem parseEntry_not_ok_of_badValue (k : String) (c : List (String × Yaml))
    (field : String) (v : Yaml)
    (hf : field = "request_per_minute" ∨ field = "input_tokens_per_minute" ∨
      field = "output_tokens_per_minute")
    (hl : ylookup c field = some v) (hv : pyInt v = none) :
    exceptOk (parseEntry k (.ymap c)) = false := by
  rcases hf with rfl | rfl | rfl
  · simp [parseEntry, hl, hv, exceptOk]
  · cases h1 : ylookup c "request_per_minute" with
    | none => simp [parseEntry, h1, exceptOk]
    | some v1 =>
      cases h2 : pyInt v1 with
      | none => simp [parseEntry, h1, h2, exceptOk]
      | some r => simp [parseEntry, h1, h2, hl, hv, exceptOk]
  · cases h1 : ylookup c "request_per_minute" with
    | none => simp [parseEntry, h1, exceptOk]
    | some v1 =>
      cases h2 : pyInt v1 with
      | none => simp [parseEntry, h1, h2, exceptOk]
      | some r =>
        cases h3 : ylookup c "input_tokens_per_minute" with
        | none => simp [parseEntry, h1, h2, h3, exceptOk]
        | some v2 =>
          cases h4 : pyInt v2 with
          | none => simp [parseEntry, h1, h2, h3, h4, exceptOk]
          | some i => simp [parseEntry, h1, h2, h3, h4, hl, hv, exceptOk]

theorem parseEntries_not_ok_of_mem :
    ∀ (entries : List (String × Yaml)) (k : String) (cfg : Yaml),
      (k, cfg) ∈ entries → exceptOk (parseEntry k cfg) = false →
      exceptOk (parseEntries entries) = false := by
  intro entries
  induction entries with
  | nil => intro k cfg hm; cases hm
  | cons p t ih =>
    intro k cfg hm he
    obtain ⟨k0, c0⟩ := p
    rcases List.mem_cons.mp hm with heq | hmt
    · injection heq with hk hc
      subst hk
      subst hc
      cases hp : parseEntry k cfg with
      | error e => simp [parseEntries, hp, exceptOk]
      | ok lim => rw [hp] at he; simp [exceptOk] at he
    · cases hp : parseEntry k0 c0 with
      | error e => simp [parseEntries, hp, exceptOk]
      | ok lim =>
        have ht := ih k cfg hmt he
        cases hres : parseEntries t with
        | error e => simp [parseEntries, hp, hres, exceptOk]
        | ok r => rw [hres] at ht; simp [exceptOk] at ht

theorem parseEntries_lookup :
    ∀ (entries : List (String × Yaml)) (res : List (String × APIKeyLimits)),
      (entries.map Prod.fst).Nodup →
      parseEntries entries = .ok res →
      ∀ (k : String) (cfg : Yaml) (lim : APIKeyLimits),
        (k, cfg) ∈ entries → parseEntry k cfg = .ok lim →
        store_get res k = some lim := by
  intro entries
  induction entries with
  | nil => intro res _ _ k cfg lim hm; cases hm
  | cons p t ih =>
    obtain ⟨k0, c0⟩ := p
    intro res hnd hres k cfg lim hm hp
    rw [List.map_cons, List.nodup_cons] at hnd
    simp only [parseEntries] at hres
    cases hp0 : parseEntry k0 c0 with
    | error e => rw [hp0] at hres; exact absurd hres (by simp)
    | ok lim0 =>
      rw [hp0] at hres
      cases ht : parseEntries t with
      | error e => rw [ht] at hres; exact absurd hres (by simp)
      | ok r =>
        rw [ht] at hres
        injection hres with hres'
        subst hres'
        rcases List.mem_cons.mp hm with heq | hmt
        · injection heq with hk hc
          subst hk
          subst hc
          rw [hp0] at hp
          injection hp with hl
          subst hl
          simp [store_get]
        · have hk : ¬ k0 = k := by
            intro hkk
            subst hkk
            exact hnd.1 (List.mem_map.mpr ⟨(k0, cfg), hmt, rfl⟩)
          have hrec := ih r hnd.2 ht k cfg lim hmt hp
          simp only [store_get, if_neg hk]
          exact hrec

/-- C7 (counterexample): loading `c7Doc` succeeds and yields rpm 7 even
though the `request_per_minute` value is a string, not an integer — so
"fails on a non-integer limit value" is false as stated. -/
theorem C7_counterexample :
    reload (some (.ok c7Doc)) = .ok [("k", ⟨"k", 7, 2, 3⟩)] ∧
    (∀ n : Int, Yaml.ystr "7" ≠ Yaml.yint n) := by
  refine ⟨rfl, ?_⟩
  intro n h
  cases h

theorem digitVal_ascii_none {c : Char} (h1 : c.toNat < 128)
    (h2 : ¬ (48 ≤ c.toNat ∧ c.toNat ≤ 57)) : digitVal c = none := by
  unfold digitVal
  rw [if_neg h2, if_pos (by omega)]

theorem digitsCore_none_of_bad {c : Char} (hd : digitVal c = none) (hu : c ≠ '_') :
    ∀ (cs : List Char), c ∈ cs → ∀ (acc : Nat) (prev : Bool),
      digitsCore cs acc prev = none := by
  intro cs
  induction cs with
  | nil => intro hm; cases hm
  | cons x t ih =>
    intro hm acc prev
    by_cases hx : x = c
    · subst hx
      unfold digitsCore
      simp only [hd]
      simp [hu]
    · have hmt : c ∈ t := by
        rcases List.mem_cons.mp hm with h | h
        · exact absurd h.symm hx
        · exact h
      unfold digitsCore
      cases hdx : digitVal x with
      | some d =>
        simp only [hdx]
        exact ih hmt _ _
      | none =>
        simp only [hdx]
        split
        · exact ih hmt _ _
        · rfl

theorem pyInt_none_of_raises {v : Yaml} (h : pyIntRaises v = true) : pyInt v = none := by
  cases v with
  | ynull => rfl
  | ylist l => rfl
  | ymap m => rfl
  | ybool b => exact absurd h (by simp [pyIntRaises])
  | yint n => exact absurd h (by simp [pyIntRaises])
  | ystr s =>
    unfold pyIntRaises at h
    rw [Bool.or_eq_true] at h
    show pyIntOfStr s = none
    unfold pyIntOfStr
    rcases h with hemp | hany
    · have hnil : (pyStrip s).toList = [] := of_decide_eq_true hemp
      rw [hnil]
    · rw [List.any_eq_true] at hany
      obtain ⟨c, hcm, hcb⟩ := hany
      obtain ⟨h128, hnd, hplus, hminus, hund⟩ := of_decide_eq_true hcb
      have hdv : digitVal c = none := digitVal_ascii_none h128 hnd
      cases hcl : (pyStrip s).toList with
      | nil => rfl
      | cons x rest =>
        rw [hcl] at hcm
        by_cases hx1 : x = '-'
        · have hcr : c ∈ rest := by
            rcases List.mem_cons.mp hcm with h | h
            · exact absurd (h.trans hx1) hminus
            · exact h
          simp [hx1, digitsCore_none_of_bad hdv hund rest hcr 0 false]
        · by_cases hx2 : x = '+'
          · have hcr : c ∈ rest := by
              rcases List.mem_cons.mp hcm with h | h
              · exact absurd (h.trans hx2) hplus
              · exact h
            simp [hx1, hx2, digitsCore_none_of_bad hdv hund rest hcr 0 false]
          · simp [hx1, hx2, digitsCore_none_of_bad hdv hund (x :: rest) hcm 0 false]

/-- C7 (amended): `reload` fails on a missing file, on a document the
parser rejects, on an entry missing any of the three limit fields, and on
a limit value that Python's `int()` cannot convert — a null, list or
mapping value, or a string that (after whitespace stripping) is empty or
contains an ASCII character other than digits, a sign or an underscore
(`pyIntRaises`).  Values `int()` does convert — integer-formatted strings
like `"7"` (with optional whitespace padding, sign, underscore grouping
or non-ASCII decimal digits) and booleans — are accepted, not rejected.
Otherwise every entry of the `keys` mapping yields an `APIKeyLimits`
record with the converted limits, retrievable by lookup. -/
theorem C7_reload_amended :
    reload none = .error .fileNotFound ∧
    reload (some (.error ())) = .error .parseErr ∧
    (∀ (entries : List (String × Yaml)) (k : String) (c : List (String × Yaml))
        (field : String), (k, Yaml.ymap c) ∈ entries →
      (field = "request_per_minute" ∨ field = "input_tokens_per_minute" ∨
        field = "output_tokens_per_minute") →
      ylookup c field = none →
      exceptOk (reload (some (.ok (keysDoc entries)))) = false) ∧
    (∀ (entries : List (String × Yaml)) (k : String) (c : List (String × Yaml))
        (field : String) (v : Yaml), (k, Yaml.ymap c) ∈ entries →
      (field = "request_per_minute" ∨ field = "input_tokens_per_minute" ∨
        field = "output_tokens_per_minute") →
      ylookup c field = some v → pyIntRaises v = true →
      exceptOk (reload (some (.ok (keysDoc entries)))) = false) ∧
    (∀ (entries : List (String × Yaml)) (res : List (String × APIKeyLimits)),
      (entries.map Prod.fst).Nodup →
      reload (some (.ok (keysDoc entries))) = .ok res →
      ∀ (k : String) (cfg : Yaml) (lim : APIKeyLimits),
        (k, cfg) ∈ entries → parseEntry k cfg = .ok lim →
        store_get res k = some lim) := by
  refine ⟨rfl, rfl, ?_, ?_, ?_⟩
  · intro entries k c field hm hf hl
    rw [reload_keysDoc]
    exact parseEntries_not_ok_of_mem entries k (.ymap c) hm
      (parseEntry_not_ok_of_missing k c field hf hl)
  · intro entries k c field v hm hf hl hv
    rw [reload_keysDoc]
    exact parseEntries_not_ok_of_mem entries k (.ymap c) hm
      (parseEntry_not_ok_of_badValue k c field v hf hl (pyInt_none_of_raises hv))
  · intro entries res hnd hres
    rw [reload_keysDoc] at hres
    exact parseEntries_lookup entries res hnd hres

/-- Witness for the amended C7: a concrete well-formed document loads and
its record is retrievable. -/
theorem C7_reload_amended_witness :
    store_get [("k", (⟨"k", 7, 2, 3⟩ : APIKeyLimits))] "k" =
      some (⟨"k", 7, 2, 3⟩ : APIKeyLimits) :=
  C7_reload_amended.2.2.2.2
    [("k", Yaml.ymap [("request_per_minute", .ystr "7"),
      ("input_tokens_per_minute", .yint 2), ("output_tokens_per_minute", .yint 3)])]
    [("k", ⟨"k", 7, 2, 3⟩)] (by simp) rfl "k"
    (Yaml.ymap [("request_per_minute", .ystr "7"),
      ("input_tokens_per_minute", .yint 2), ("output_tokens_per_minute", .yint 3)])
    ⟨"k", 7, 2, 3⟩ (List.mem_singleton.mpr rfl) rfl
